import Mathlib

/-!
# Verification of the `bevy_i18n` font-loading and translation-refresh core

Shallow embedding of `src/plugin.rs`:

* `load_dynamic_fonts` — builds the Font Asset Table (`FontManager`) from the
  build-script-generated `FONT_FAMILIES` static table;
* `monitor_font_loading` — polls asset readiness and removes the `FontsLoading`
  marker resource;
* `update_translations` — the Refresh Pass over label entities, registered
  twice in `I18nPlugin::build`, once under `resource_removed::<FontsLoading>`
  and once under `resource_changed::<I18n>`.

Rust `HashMap`s are embedded as association lists with overwriting insertion
(`SMap`), asset handles as natural numbers, and the external asset server as
functions `load : String → Handle` and a per-tick readiness oracle.  The Bevy
schedule is embedded as an explicit per-tick trace semantics (`flagAt`,
`flagRemovedEdge`, `i18nChangedAt`), using Bevy's documented run-condition
semantics: commands issued during a tick are applied at the end of that tick,
`resource_removed` fires on the first evaluation that observes the resource
gone, and `resource_changed` observes the startup insertion of a resource as a
change on the first tick.
-/

/-- Asset handles (`Handle<Font>`), identified by their id. -/
abbrev Handle := Nat

/-- String-keyed map, embedding Rust's `HashMap<String, α>`:
an association list whose insertion overwrites the previous binding. -/
abbrev SMap (α : Type) := List (String × α)

/-- Map lookup: `HashMap::get`. -/
def SMap.lookup {α : Type} (m : SMap α) (k : String) : Option α :=
  (m.find? (fun p => p.1 == k)).map Prod.snd

/-- Map insertion: `HashMap::insert`, overwriting any existing binding for `k`. -/
def SMap.insert {α : Type} (m : SMap α) (k : String) (v : α) : SMap α :=
  (k, v) :: m.filter (fun p => p.1 != k)

/-- `HashMap::values().all p` (order-independent here since `p` is checked on all). -/
def SMap.allValues {α : Type} (m : SMap α) (p : α → Bool) : Bool :=
  m.all (fun q => p q.2)

/-- The keys of the map. -/
def SMap.keys {α : Type} (m : SMap α) : List String :=
  m.map Prod.fst

theorem SMap.find_filter_ne {α : Type} (m : SMap α) (k c : String) (h : c ≠ k) :
    (m.filter (fun p => p.1 != k)).find? (fun p => p.1 == c) =
      m.find? (fun p => p.1 == c) := by
  induction m with
  | nil => rfl
  | cons p m ih =>
    by_cases hp : p.1 = k
    · have h1 : (p.1 != k) = false := by simp [hp]
      have h2 : (p.1 == c) = false := by
        rw [hp]
        simpa using fun h' : k = c => h h'.symm
      simp [List.filter_cons, h1, List.find?, h2, ih]
    · have h1 : (p.1 != k) = true := by simp [hp]
      simp only [List.filter_cons, h1, if_true, List.find?]
      cases hc : (p.1 == c) <;> simp [ih]

theorem SMap.lookup_insert {α : Type} (m : SMap α) (k c : String) (v : α) :
    (m.insert k v).lookup c = if c = k then some v else m.lookup c := by
  unfold SMap.insert SMap.lookup
  by_cases h : c = k
  · subst h
    simp [List.find?]
  · have hk : ((k, v).1 == c) = false := by
      simpa using fun h' : k = c => h h'.symm
    simp only [List.find?, hk, if_neg h]
    exact congrArg (Option.map Prod.snd) (SMap.find_filter_ne m k c h)

theorem SMap.keys_insert_nodup {α : Type} (m : SMap α) (k : String) (v : α)
    (h : m.keys.Nodup) : (m.insert k v).keys.Nodup := by
  unfold SMap.insert SMap.keys
  simp only [List.map_cons, List.nodup_cons]
  constructor
  · intro hmem
    rcases List.mem_map.mp hmem with ⟨p, hp, hpk⟩
    have := (List.mem_filter.mp hp).2
    rw [hpk] at this
    simp at this
  · exact List.Nodup.sublist ((List.filter_sublist m).map Prod.fst) h

/-- A per-family record (`FontFolder` in `resources.rs`): the fallback handle
and the locale-code → handle map populated by `load_dynamic_fonts`. -/
structure FontFolder where
  fallback : Handle
  fonts : SMap Handle
  deriving Repr, DecidableEq

/-- The Font Asset Table (`FontManager` in `resources.rs`):
family name → `FontFolder`. -/
abbrev FontManager := SMap FontFolder

/-- One entry of the build-script-generated `FONT_FAMILIES` static table. -/
structure DynFont where
  family : String
  path : String
  locales : List String
  deriving Repr, DecidableEq

/-- Rust's `str::split(sep)` on a character list: the list of maximal chunks
between occurrences of `sep`.  Always yields at least one (possibly empty)
chunk, exactly like the Rust iterator. -/
def rustSplit (sep : Char) : List Char → List (List Char)
  | [] => [[]]
  | c :: cs =>
    if c = sep then [] :: rustSplit sep cs
    else
      match rustSplit sep cs with
      | [] => [[c]]
      | h :: t => (c :: h) :: t

theorem rustSplit_ne_nil (sep : Char) (s : List Char) : rustSplit sep s ≠ [] := by
  induction s with
  | nil => simp [rustSplit]
  | cons c cs ih =>
    unfold rustSplit
    by_cases h : c = sep
    · simp [h]
    · simp only [h, if_false]
      cases hs : rustSplit sep cs <;> simp

theorem rustSplit_head (sep : Char) (s : List Char) :
    (rustSplit sep s).head? = some (s.takeWhile (fun c => c ≠ sep)) := by
  induction s with
  | nil => simp [rustSplit, List.takeWhile]
  | cons c cs ih =>
    unfold rustSplit
    by_cases h : c = sep
    · simp [h, List.takeWhile]
    · simp only [h, if_false]
      cases hs : rustSplit sep cs with
      | nil => exact absurd hs (rustSplit_ne_nil sep cs)
      | cons hd tl =>
        rw [hs] at ih
        simp only [List.head?] at ih
        simp [List.takeWhile, h, Option.some.injEq] at ih ⊢
        exact ih

/-- `font.split('.').next()` at `plugin.rs:72`: the component of the filename
before its first `'.'`, or `none` if the split yields nothing (in which case
the Rust code panics via `.expect("Locale is required")`). -/
def deriveLocaleOpt (f : String) : Option String :=
  ((rustSplit '.' f.data).head?).map String.mk

/-- The (total) locale-code derivation: the component before the first `'.'`. -/
def deriveLocale (f : String) : String :=
  String.mk (f.data.takeWhile (fun c => c ≠ '.'))

theorem deriveLocaleOpt_eq_some (f : String) :
    deriveLocaleOpt f = some (deriveLocale f) := by
  unfold deriveLocaleOpt deriveLocale
  rw [rustSplit_head]
  rfl

/-- `Path::new(path).join(file)`. -/
def joinPath (dir file : String) : String := dir ++ "/" ++ file

/-- Body of the inner loop of `load_dynamic_fonts` (`plugin.rs:70-76`),
threaded through `Option` so that a failed locale derivation aborts startup
(the `.expect` at `plugin.rs:72`). -/
def loadFolderStep (load : String → Handle) (path : String)
    (m : Option (SMap Handle)) (font : String) : Option (SMap Handle) :=
  match m with
  | none => none
  | some fonts =>
    match deriveLocaleOpt font with
    | none => none
    | some locale => some (fonts.insert locale (load (joinPath path font)))

/-- `load_dynamic_fonts`'s per-family work (`plugin.rs:66-77`): load the
fallback, then load and insert every locale file.  `none` models a startup
panic. -/
def loadFolder (load : String → Handle) (d : DynFont) : Option FontFolder :=
  match d.locales.foldl (loadFolderStep load d.path) (some []) with
  | none => none
  | some fonts => some { fallback := load (joinPath d.path "fallback.ttf"), fonts := fonts }

/-- `load_dynamic_fonts` (`plugin.rs:62-79`): build the Font Asset Table from
the static `FONT_FAMILIES` table.  `none` models a startup panic. -/
def loadDynamicFonts (load : String → Handle) (table : List DynFont) : Option FontManager :=
  table.foldl
    (fun fm d =>
      match fm with
      | none => none
      | some fm =>
        match loadFolder load d with
        | none => none
        | some folder => some (fm.insert d.family folder))
    (some [])

/-- The readiness scan of `monitor_font_loading` (`plugin.rs:89-95`): for every
`FontFolder` in the table, every handle in `folder.fonts.values()` must report
loaded.  Note the source iterates only `folder.fonts` — the `fallback` handle
is never queried. -/
def allFontsLoaded (isLoaded : Handle → Bool) (fm : FontManager) : Bool :=
  fm.allValues (fun folder => folder.fonts.allValues isLoaded)

/-- External per-tick inputs to the embedded schedule: the asset server's
readiness oracle (`AssetServer::is_loaded` during tick `t`) and whether user
code mutated the `I18n` resource during the frame observed at tick `t`. -/
structure SimInput where
  ready : Nat → Handle → Bool
  i18nMutated : Nat → Bool

/-- Whether the `FontsLoading` marker resource exists at the start of tick `t`.
It is initialized at startup (`init_resource::<FontsLoading>` in
`I18nPlugin::build`); during each tick on which it exists,
`monitor_font_loading` runs and issues a deferred `remove_resource` command iff
the scan passes, which takes effect at the end of the tick. -/
def flagAt (inp : SimInput) (fm : FontManager) : Nat → Bool
  | 0 => true
  | t + 1 => flagAt inp fm t && !allFontsLoaded (inp.ready t) fm

/-- The run condition `resource_exists::<FontsLoading>` gating
`monitor_font_loading` at tick `t`. -/
def monitorRuns (inp : SimInput) (fm : FontManager) (t : Nat) : Bool :=
  flagAt inp fm t

/-- The run condition `resource_removed::<FontsLoading>` at tick `t`: the
resource existed when the condition last evaluated and is gone now. -/
def flagRemovedEdge (inp : SimInput) (fm : FontManager) : Nat → Bool
  | 0 => false
  | t + 1 => flagAt inp fm t && !flagAt inp fm (t + 1)

/-- The run condition `resource_changed::<I18n>` at tick `t`: true on the
first tick (the startup `init_resource::<I18n>` insertion counts as a change)
and thereafter whenever the resource was mutated since the last evaluation. -/
def i18nChangedAt (inp : SimInput) : Nat → Bool
  | 0 => true
  | t + 1 => inp.i18nMutated (t + 1)

/-- How many times `update_translations` runs during tick `t`:
`I18nPlugin::build` registers it twice, once under
`resource_removed::<FontsLoading>` and once under
`resource_changed::<I18n>` (`plugin.rs:52-53`). -/
def passCount (inp : SimInput) (fm : FontManager) (t : Nat) : Nat :=
  (if flagRemovedEdge inp fm t then 1 else 0) + (if i18nChangedAt inp t then 1 else 0)

/-- The `I18nText` component: translation key, interpolation arguments, and
optional locale override (its `locale` field). -/
structure I18nText where
  key : String
  args : SMap String
  locale : Option String
  deriving Repr, DecidableEq

/-- The external translation service and translation state: `translate` is the
catalog lookup (assumed total, with its own internal fallback), and
`activeLocale` is the active locale held by the `I18n` resource. -/
structure TransCtx where
  translate : String → String → SMap String → String
  activeLocale : String

/-- Modelled from the spec: `I18nText::translate` (in `components.rs`, not
under `src/`) delegates to the external catalog as
`translate(key, effective_locale, args)`, where the effective locale is the
entity's `locale` override if present, else the active locale from the `I18n`
resource. -/
def I18nText.doTranslate (ctx : TransCtx) (k : I18nText) : String :=
  ctx.translate k.key (k.locale.getD ctx.activeLocale) k.args

/-- Modelled from the spec: `FontManager::get` (in `resources.rs`, not under
`src/`).  Look the family up in the table; if present, resolve
`locales.get(effective_locale)` if that key exists, else the family's
`fallback`.  If the family is absent, the spec's policy is to leave
`DisplayFont` unchanged, represented here by returning the caller's current
handle `current`. -/
def FontManager.get (fm : FontManager) (family : String) (locale : Option String)
    (active : String) (current : Handle) : Handle :=
  match fm.lookup family with
  | none => current
  | some folder =>
    match folder.fonts.lookup (locale.getD active) with
    | none => folder.fallback
    | some h => h

/-- A label entity as the Refresh Pass sees it: the two display fields
(`Text.0` and `TextFont.font`), the optional `I18nText` and `I18nFont`
components, and a stand-in `other` field for every component and field the
pass does not own. -/
structure Entity where
  text : String
  font : Handle
  i18nText : Option I18nText
  i18nFont : Option String
  other : Nat
  deriving Repr, DecidableEq

/-- The per-entity body of `update_translations` (`plugin.rs:107-112`): the
query matches entities `With<I18nText>`; on a match, write
`text.0 = key.translate()` and, if an `I18nFont` component is present, write
`text_font.font = font_manager.get(&dyn_font.0, key.locale.clone())`. -/
def updateEntity (ctx : TransCtx) (fm : FontManager) (e : Entity) : Entity :=
  match e.i18nText with
  | none => e
  | some k =>
    let e1 := { e with text := k.doTranslate ctx }
    match e.i18nFont with
    | none => e1
    | some family => { e1 with font := fm.get family k.locale ctx.activeLocale e.font }

/-- One Refresh Pass (`update_translations`, `plugin.rs:102-113`) over the
entity list matched by the query. -/
def updateTranslations (ctx : TransCtx) (fm : FontManager) (es : List Entity) : List Entity :=
  es.map (updateEntity ctx fm)

theorem flagAt_true_iff (inp : SimInput) (fm : FontManager) (t : Nat) :
    flagAt inp fm t = true ↔ ∀ s, s < t → allFontsLoaded (inp.ready s) fm = false := by
  induction t with
  | zero => simp [flagAt]
  | succ t ih =>
    rw [show flagAt inp fm (t + 1) = (flagAt inp fm t && !allFontsLoaded (inp.ready t) fm)
        from rfl,
      Bool.and_eq_true, Bool.not_eq_true', ih]
    constructor
    · rintro ⟨h1, h2⟩ s hs
      rcases Nat.lt_succ_iff_lt_or_eq.mp hs with hlt | heq
      · exact h1 s hlt
      · rw [heq]
        exact h2
    · intro h
      exact ⟨fun s hs => h s (Nat.lt_succ_of_lt hs), h t (Nat.lt_succ_self t)⟩

theorem flagAt_false_mono (inp : SimInput) (fm : FontManager) {t s : Nat}
    (h : flagAt inp fm t = false) (hts : t ≤ s) : flagAt inp fm s = false := by
  induction s with
  | zero =>
    have ht : t = 0 := Nat.le_zero.mp hts
    rw [ht] at h
    exact h
  | succ s ih =>
    by_cases hts' : t ≤ s
    · have hf := ih hts'
      simp [flagAt, hf]
    · have ht : t = s + 1 := by omega
      rw [ht] at h
      exact h

theorem updateEntity_idem (ctx : TransCtx) (fm : FontManager) (e : Entity) :
    updateEntity ctx fm (updateEntity ctx fm e) = updateEntity ctx fm e := by
  unfold updateEntity
  cases hk : e.i18nText with
  | none => simp [hk]
  | some k =>
    cases hf : e.i18nFont with
    | none => simp [hk, hf]
    | some fam =>
      simp only [hk, hf]
      unfold FontManager.get
      cases hl : fm.lookup fam with
      | none => simp
      | some folder =>
        cases folder.fonts.lookup (k.locale.getD ctx.activeLocale) <;> simp

theorem foldl_loadFolderStep_some (load : String → Handle) (path : String)
    (files : List String) (acc : SMap Handle) :
    files.foldl (loadFolderStep load path) (some acc) =
      some (files.foldl (fun m f => m.insert (deriveLocale f) (load (joinPath path f))) acc) := by
  induction files generalizing acc with
  | nil => rfl
  | cons f files ih =>
    have hstep : loadFolderStep load path (some acc) f =
        some (acc.insert (deriveLocale f) (load (joinPath path f))) := by
      unfold loadFolderStep
      rw [deriveLocaleOpt_eq_some]
    rw [List.foldl_cons, hstep, ih, List.foldl_cons]

theorem foldl_insert_lookup (load : String → Handle) (path : String)
    (files : List String) (acc : SMap Handle) (c : String) :
    (files.foldl (fun m f => m.insert (deriveLocale f) (load (joinPath path f))) acc).lookup c =
      files.foldl
        (fun r f => if deriveLocale f = c then some (load (joinPath path f)) else r)
        (acc.lookup c) := by
  induction files generalizing acc with
  | nil => rfl
  | cons f files ih =>
    rw [List.foldl_cons, List.foldl_cons, ih]
    congr 1
    rw [SMap.lookup_insert]
    by_cases h : c = deriveLocale f
    · simp [h]
    · rw [if_neg h, if_neg (fun hh => h hh.symm)]

theorem foldl_insert_keys_nodup (load : String → Handle) (path : String)
    (files : List String) (acc : SMap Handle) (h : acc.keys.Nodup) :
    (files.foldl
      (fun m f => m.insert (deriveLocale f) (load (joinPath path f))) acc).keys.Nodup := by
  induction files generalizing acc with
  | nil => exact h
  | cons f files ih => exact ih _ (SMap.keys_insert_nodup _ _ _ h)

/-- C1 concrete instance: one family whose fallback handle is `0` and whose
single locale handle is `1`. -/
def c1Fm : FontManager := [("family", { fallback := 0, fonts := [("en", 1)] })]

/-- C1 concrete instance: handle `1` is ready from the start, handle `0` (the
fallback) never becomes ready; the `I18n` resource is never mutated. -/
def c1Inp : SimInput := { ready := fun _ h => h == 1, i18nMutated := fun _ => false }

/-- C1, counterexample: the family's fallback handle `0` is never ready, yet
the Loading Flag is removed during tick 0 (absent at tick 1), because
`monitor_font_loading` iterates only `folder.fonts.values()` and never queries
the fallback handle.  This refutes the claim that removal happens only once
all handles
including the fallbacks report ready. -/
theorem c1_counterexample :
    (c1Fm.lookup "family").map FontFolder.fallback = some 0 ∧
      c1Inp.ready 0 0 = false ∧ flagAt c1Inp c1Fm 1 = false := by
  refine ⟨by decide, rfl, by decide⟩

/-- C1 (amended): the Loading Monitor, on every tick while the Loading Flag
exists, inspects only the handles in each record's `locales` map (fallback
handles are not inspected), and the flag transitions from present at tick `t`
to absent at tick `t + 1` exactly when tick `t` is the first tick on which all
of those locale handles report ready. -/
theorem c1_monitor_removal (inp : SimInput) (fm : FontManager) (t : Nat) :
    (flagAt inp fm t = true ∧ flagAt inp fm (t + 1) = false) ↔
      (allFontsLoaded (inp.ready t) fm = true ∧
        ∀ s, s < t → allFontsLoaded (inp.ready s) fm = false) := by
  rw [show flagAt inp fm (t + 1) = (flagAt inp fm t && !allFontsLoaded (inp.ready t) fm)
      from rfl]
  constructor
  · rintro ⟨h1, h2⟩
    rw [h1, Bool.true_and, Bool.not_eq_false'] at h2
    exact ⟨h2, (flagAt_true_iff inp fm t).mp h1⟩
  · rintro ⟨h1, h2⟩
    have ht : flagAt inp fm t = true := (flagAt_true_iff inp fm t).mpr h2
    rw [ht, h1]
    exact ⟨rfl, rfl⟩

/-- C1, witness: on the concrete instance all locale handles are ready at tick
0, so the flag is present at tick 0 and absent at tick 1. -/
theorem c1_witness : flagAt c1Inp c1Fm 0 = true ∧ flagAt c1Inp c1Fm 1 = false :=
  (c1_monitor_removal c1Inp c1Fm 0).mpr ⟨by decide, fun s hs => absurd hs (Nat.not_lt_zero s)⟩

/-- C2 concrete instance: one family, every handle ready from tick 0, and the
`I18n` resource mutated so that its change signal fires at tick 1. -/
def c2Fm : FontManager := [("family", { fallback := 0, fonts := [("en", 1)] })]

/-- C2 concrete instance inputs. -/
def c2Inp : SimInput := { ready := fun _ _ => true, i18nMutated := fun t => t == 1 }

/-- C2, counterexample: at tick 1 both run conditions are true — the flag was
removed during tick 0 (`resource_removed` edge), and `I18n` changed — and
`update_translations` runs twice, because `I18nPlugin::build` registers it as
two separate systems rather than under a single OR condition.  This refutes
the claim that the Refresh Pass runs at most once per tick. -/
theorem c2_counterexample :
    flagRemovedEdge c2Inp c2Fm 1 = true ∧ i18nChangedAt c2Inp 1 = true ∧
      passCount c2Inp c2Fm 1 = 2 := by
  refine ⟨by decide, rfl, by decide⟩

/-- C2 (amended): `update_translations` is registered twice, once per trigger;
the pass runs at most twice per tick, runs zero times exactly when neither
trigger fired, and runs twice — not once — exactly on a tick where both
triggers fire. -/
theorem c2_two_registrations (inp : SimInput) (fm : FontManager) (t : Nat) :
    passCount inp fm t ≤ 2 ∧
      (passCount inp fm t = 0 ↔
        (flagRemovedEdge inp fm t = false ∧ i18nChangedAt inp t = false)) ∧
      (passCount inp fm t = 2 ↔
        (flagRemovedEdge inp fm t = true ∧ i18nChangedAt inp t = true)) := by
  unfold passCount
  cases flagRemovedEdge inp fm t <;> cases i18nChangedAt inp t <;> simp

/-- C2, witness: the amended bound evaluated on the concrete instance. -/
theorem c2_witness : passCount c2Inp c2Fm 5 ≤ 2 :=
  (c2_two_registrations c2Inp c2Fm 5).1

/-- C4: startup never aborts on a locale filename whose component before the
first `'.'` is empty: `split('.').next()` is `Some` on every string (the first
chunk of a split may be the empty string), so the
`.expect("Locale is required")` at `plugin.rs:72` can never fire; for the
filename `".ttf"` the empty locale code `""` is silently inserted and table
construction continues. -/
theorem c4_startup_never_aborts :
    (∀ f : String, (deriveLocaleOpt f).isSome = true) ∧
      deriveLocaleOpt ".ttf" = some "" ∧
      (∀ load : String → Handle,
        loadFolder load { family := "fam", path := "p", locales := [".ttf"] } =
          some { fallback := load "p/fallback.ttf", fonts := [("", load "p/.ttf")] }) := by
  refine ⟨fun f => ?_, by decide, fun load => ?_⟩
  · rw [deriveLocaleOpt_eq_some]
    rfl
  · rfl

/-- C3: during a Refresh Pass, an entity whose `FontFamilyRef` family is
absent from the Font Asset Table keeps its prior `DisplayFont` value (the
spec-modelled miss policy of `FontManager::get`), the pass is total (no
crash), and every entity's output depends only on its own input, so other
entities are still updated normally. -/
theorem c3_missing_family (ctx : TransCtx) (fm : FontManager) (e : Entity) (k : I18nText)
    (family : String)
    (h1 : e.i18nText = some k) (h2 : e.i18nFont = some family)
    (h3 : fm.lookup family = none) :
    (updateEntity ctx fm e).font = e.font ∧
      (∀ (es : List Entity) (i : Nat),
        (updateTranslations ctx fm es)[i]? = (es[i]?).map (updateEntity ctx fm)) := by
  constructor
  · simp [updateEntity, h1, h2, FontManager.get, h3]
  · intro es i
    simp [updateTranslations]

/-- C3 concrete translation context. -/
def c3Ctx : TransCtx := { translate := fun k l _ => k ++ ":" ++ l, activeLocale := "en" }

/-- C3 concrete entity referencing the absent family `"ghost"`. -/
def c3Entity : Entity :=
  { text := "old", font := 7, i18nText := some { key := "greet", args := [], locale := none },
    i18nFont := some "ghost", other := 0 }

/-- C3, witness: with an empty Font Asset Table, the ghost-family entity's
`DisplayFont` is left at its prior value `7`. -/
theorem c3_witness : (updateEntity c3Ctx [] c3Entity).font = c3Entity.font :=
  (c3_missing_family c3Ctx [] c3Entity { key := "greet", args := [], locale := none }
    "ghost" rfl rfl rfl).1

/-- C5: for an entity whose family is present in the Font Asset Table, the
Refresh Pass writes `FontManager::get`'s resolution into `DisplayFont`, and
that resolution is the `locales` entry for the effective locale when the key
exists, else the family's `fallback` handle. -/
theorem c5_resolution (ctx : TransCtx) (fm : FontManager) (e : Entity) (k : I18nText)
    (family : String) (folder : FontFolder)
    (h1 : e.i18nText = some k) (h2 : e.i18nFont = some family)
    (h3 : fm.lookup family = some folder) :
    (updateEntity ctx fm e).font = fm.get family k.locale ctx.activeLocale e.font ∧
      (∀ hdl : Handle, folder.fonts.lookup (k.locale.getD ctx.activeLocale) = some hdl →
        fm.get family k.locale ctx.activeLocale e.font = hdl) ∧
      (folder.fonts.lookup (k.locale.getD ctx.activeLocale) = none →
        fm.get family k.locale ctx.activeLocale e.font = folder.fallback) := by
  refine ⟨?_, ?_, ?_⟩
  · simp [updateEntity, h1, h2]
  · intro hdl hh
    simp [FontManager.get, h3, hh]
  · intro hh
    simp [FontManager.get, h3, hh]

/-- C5 concrete translation context with active locale `"fr"`. -/
def c5Ctx : TransCtx := { translate := fun k l _ => k ++ ":" ++ l, activeLocale := "fr" }

/-- C5 concrete family record: `locales = [("en", 1)]`, `fallback = 0`. -/
def c5Folder : FontFolder := { fallback := 0, fonts := [("en", 1)] }

/-- C5 concrete Font Asset Table. -/
def c5Fm : FontManager := [("fam", c5Folder)]

/-- C5 concrete entity resolving under the active locale `"fr"`. -/
def c5EntityFr : Entity :=
  { text := "", font := 5, i18nText := some { key := "greet", args := [], locale := none },
    i18nFont := some "fam", other := 0 }

/-- C5 concrete entity with locale override `"en"`. -/
def c5EntityEn : Entity :=
  { text := "", font := 5, i18nText := some { key := "greet", args := [], locale := some "en" },
    i18nFont := some "fam", other := 0 }

/-- C5, witness: the spec's example — `locales = {en ↦ H1}` with
`fallback = H0` resolves `"fr"` to `H0 = 0` and `"en"` to `H1 = 1`. -/
theorem c5_witness :
    (updateEntity c5Ctx c5Fm c5EntityFr).font = 0 ∧
      (updateEntity c5Ctx c5Fm c5EntityEn).font = 1 := by
  have hfr := c5_resolution c5Ctx c5Fm c5EntityFr
    { key := "greet", args := [], locale := none } "fam" c5Folder rfl rfl (by decide)
  have hen := c5_resolution c5Ctx c5Fm c5EntityEn
    { key := "greet", args := [], locale := some "en" } "fam" c5Folder rfl rfl (by decide)
  exact ⟨hfr.1.trans (hfr.2.2 (by decide)), hen.1.trans (hen.2.1 1 (by decide))⟩

/-- C6: once the Loading Flag is absent at some tick `t`, it stays absent for
every later tick, and `monitor_font_loading`'s run condition
(`resource_exists::<FontsLoading>`) is false on every such tick, so the
monitor never runs again. -/
theorem c6_flag_never_readded (inp : SimInput) (fm : FontManager) (t : Nat)
    (h : flagAt inp fm t = false) :
    ∀ s, t ≤ s → flagAt inp fm s = false ∧ monitorRuns inp fm s = false := by
  intro s hs
  have hf := flagAt_false_mono inp fm h hs
  exact ⟨hf, hf⟩

/-- C6 concrete instance: everything ready from tick 0, so the flag is gone at
tick 1. -/
def c6Inp : SimInput := { ready := fun _ _ => true, i18nMutated := fun _ => false }

/-- C6 concrete Font Asset Table. -/
def c6Fm : FontManager := [("family", { fallback := 0, fonts := [("en", 1)] })]

/-- C6, witness: the flag removed at tick 1 is still absent at tick 5 and the
monitor does not run there. -/
theorem c6_witness : flagAt c6Inp c6Fm 5 = false ∧ monitorRuns c6Inp c6Fm 5 = false :=
  c6_flag_never_readded c6Inp c6Fm 1 (by decide) 5 (by decide)

/-- C7: the Refresh Pass is idempotent — running `update_translations` twice
with the same translation context and Font Asset Table yields the same entity
list (hence identical `DisplayText` and `DisplayFont` values) as running it
once. -/
theorem c7_refresh_idempotent (ctx : TransCtx) (fm : FontManager) (es : List Entity) :
    updateTranslations ctx fm (updateTranslations ctx fm es) = updateTranslations ctx fm es := by
  unfold updateTranslations
  rw [List.map_map]
  exact List.map_congr_left (fun e _ => updateEntity_idem ctx fm e)

/-- C8: a Refresh Pass leaves every entity without the `I18nText` marker
completely unchanged, and on every entity it preserves every field other than
the two display fields (`other`, `i18nText`, `i18nFont`). -/
theorem c8_frame_effect (ctx : TransCtx) (fm : FontManager) (e : Entity) :
    (e.i18nText = none → updateEntity ctx fm e = e) ∧
      (updateEntity ctx fm e).other = e.other ∧
      (updateEntity ctx fm e).i18nText = e.i18nText ∧
      (updateEntity ctx fm e).i18nFont = e.i18nFont := by
  cases hk : e.i18nText with
  | none => simp [updateEntity, hk]
  | some k =>
    cases hf : e.i18nFont <;> simp [updateEntity, hk, hf]

/-- C8 concrete translation context. -/
def c8Ctx : TransCtx := { translate := fun k _ _ => k, activeLocale := "en" }

/-- C8 concrete entity without the `I18nText` marker. -/
def c8Entity : Entity :=
  { text := "plain", font := 3, i18nText := none, i18nFont := none, other := 42 }

/-- C8, witness: the marker-less entity is returned unchanged by the pass. -/
theorem c8_witness : updateEntity c8Ctx [] c8Entity = c8Entity :=
  (c8_frame_effect c8Ctx [] c8Entity).1 rfl

/-- C9: in the folder built by `load_dynamic_fonts` for one family entry, the
handle stored under a derived locale code `c` is the one loaded for the *last*
filename in the entry whose component before the first `'.'` is `c` (`none` if
there is no such filename) — later duplicates silently overwrite earlier ones —
and the `locales` map holds at most one entry per derived code (its keys have
no duplicates). -/
theorem c9_last_wins (load : String → Handle) (d : DynFont) (folder : FontFolder)
    (h : loadFolder load d = some folder) :
    (∀ c : String, folder.fonts.lookup c =
      d.locales.foldl
        (fun r f => if deriveLocale f = c then some (load (joinPath d.path f)) else r)
        none) ∧
      folder.fonts.keys.Nodup := by
  have hf : folder.fonts =
      d.locales.foldl
        (fun (m : SMap Handle) f => m.insert (deriveLocale f) (load (joinPath d.path f))) [] := by
    unfold loadFolder at h
    rw [foldl_loadFolderStep_some] at h
    have h2 := Option.some.inj h
    rw [← h2]
  constructor
  · intro c
    rw [hf, foldl_insert_lookup]
    rfl
  · rw [hf]
    exact foldl_insert_keys_nodup _ _ _ _ (by simp [SMap.keys])

/-- C9 concrete family entry: two filenames both deriving the locale code
`"en"`. -/
def c9Dyn : DynFont := { family := "fam", path := "p", locales := ["en.ttf", "en.bold.ttf"] }

/-- C9 concrete resulting folder (handles are path lengths):
`"p/fallback.ttf"` has length 14 and `"p/en.bold.ttf"` length 13. -/
def c9Folder : FontFolder := { fallback := 14, fonts := [("en", 13)] }

/-- C9, witness: with files `["en.ttf", "en.bold.ttf"]` the `"en"` entry holds
the handle of the later file `"en.bold.ttf"`, and the keys are duplicate-free. -/
theorem c9_witness :
    c9Folder.fonts.lookup "en" = some 13 ∧ c9Folder.fonts.keys.Nodup := by
  have h := c9_last_wins String.length c9Dyn c9Folder (by decide)
  exact ⟨(h.1 "en").trans (by decide), h.2⟩

/-- C10: on the very first Update tick the `resource_changed::<I18n>` signal
is true (the startup `init_resource` insertion is observed as a change), so at
least one Refresh Pass runs at tick 0 while the Loading Flag is still present
and the monitor is still active. -/
theorem c10_first_tick_refresh (inp : SimInput) (fm : FontManager) :
    i18nChangedAt inp 0 = true ∧ 1 ≤ passCount inp fm 0 ∧ flagAt inp fm 0 = true ∧
      monitorRuns inp fm 0 = true :=
  ⟨rfl, Nat.le_refl 1, rfl, rfl⟩
